import Mathlib

/-!
Shallow embedding of `src/preproc.rs` from ripgrep-all: the adapter-selection,
recursive-execution and caching pipeline (`choose_adapter`, `rga_preproc`,
`compute_cache_key`, `run_adapter_recursively`), together with models of the
external collaborators that file calls into (adapter registry, matcher
factory, content cache, caching reader, compression codec), and theorems
checking the specification's claims against the embedding.

Byte streams are `List Nat` (one entry per byte); machine integers of the
source (`i32` adapter versions, `u64`/`u32` serialization fields) are
`Nat`/`Int` with explicit reduction modulo `2 ^ w` where they are serialized.
-/

namespace Rga

/-- Little-endian fixed-width encoding of a natural number in `k` bytes,
modelling bincode's fixed-size integer encoding (value taken mod `256 ^ k`). -/
def encodeNatLE : Nat → Nat → List Nat
  | 0, _ => []
  | k + 1, n => n % 256 :: encodeNatLE k (n / 256)

/-- bincode encoding of a `u64` (lengths, mtime). -/
def encodeU64 (n : Nat) : List Nat := encodeNatLE 8 n

/-- bincode encoding of an `i32` (two's complement, little endian). -/
def encodeI32 (v : Int) : List Nat := encodeNatLE 4 (v % (2 : Int) ^ 32).toNat

/-- The codepoint sequence of a string: our model of the byte payload bincode
writes for a Rust `String` (an injective rendering, which is all the
development relies on). -/
def strBytes (s : String) : List Nat := s.data.map Char.toNat

/-- bincode writes a string as a `u64` length followed by its payload. -/
def encodeStr (s : String) : List Nat := encodeU64 (strBytes s).length ++ strBytes s

/-- Model of a filesystem path (`std::path::PathBuf`): whether it is
absolute, plus its components (normal names or ".." entries; "." components
are not stored, matching `Path::components` normalization). -/
structure RPath where
  absolute : Bool
  components : List String
deriving DecidableEq

/-- `Path::file_name`: the final component, none when the path has no
components (e.g. the root) or ends in a ".." component. -/
def RPath.fileName (p : RPath) : Option String :=
  match p.components.getLast? with
  | none => none
  | some c => if c = ".." then none else some c

/-- One step of lexical path cleaning: drop ".", pop a normal component on
"..", keep ".." at the start of a relative path, drop it at an absolute root.
The accumulator holds the cleaned components in reverse. -/
def cleanStep (absolute : Bool) (acc : List String) (c : String) : List String :=
  if c = "." then acc
  else if c = ".." then
    match acc with
    | [] => if absolute then [] else [".."]
    | a :: rest => if a = ".." then c :: acc else rest
  else c :: acc

/-- `path_clean::PathClean::clean`: lexical resolution of "." and ".."
components, as `compute_cache_key` applies to the path hint. -/
def RPath.clean (p : RPath) : RPath :=
  { absolute := p.absolute
    components := (p.components.foldl (cleanStep p.absolute) []).reverse }

/-- `Path::to_string_lossy`: the display rendering of a path. -/
def RPath.render (p : RPath) : String :=
  (if p.absolute then "/" else "") ++ String.intercalate "/" p.components

/-- `AdapterMeta` (adapters.rs interface): adapter name, version (`i32`), and
whether the adapter's output can feed back into the pipeline. -/
structure AdapterMeta where
  name : String
  version : Int
  recurses : Bool
deriving DecidableEq

/-- `FileMeta` (matching.rs interface): optional sniffed mimetype and the
lossy file name, built per match attempt. -/
structure FileMeta where
  mimetype : Option String
  lossyFilename : String
deriving DecidableEq

/-- `FileMatcher` (matching.rs interface): why an adapter was chosen; the
payload is the extension or mimetype rule that fired. -/
inductive FileMatcher where
  | fast : String → FileMatcher
  | accurate : String → FileMatcher
deriving DecidableEq

/-- The cache-related configuration `run_adapter_recursively` reads. -/
structure CacheConfig where
  compressionLevel : Int
  maxBlobLen : Nat
deriving DecidableEq

/-- The slice of `RgaConfig` the pipeline consumes (the adapter allowlist
fields are folded into the registry model `Env.getAdapters`). -/
structure RgaConfig where
  accurate : Bool
  maxArchiveRecursion : Int
  cache : CacheConfig
deriving DecidableEq

/-- `AdaptInfo` (the unit of work of `rga_preproc`): `inp` is the full byte
sequence the input stream yields, `linePfx` the source's `line_prefix`. -/
structure AdaptInfo where
  filepathHint : RPath
  isRealFile : Bool
  inp : List Nat
  linePfx : String
  config : RgaConfig
  archiveRecursionDepth : Int
  postprocess : Bool

/-- A `FileAdapter` trait object: its metadata and the byte-level behavior of
its `adapt` method (from an `AdaptInfo` and detection reason to a list of
output streams, or an error). -/
structure FileAdapter where
  metadata : AdapterMeta
  adapt : AdaptInfo → FileMatcher → Except String (List (List Nat))

/-- The content cache (`LmdbCache`): an association list from
(namespace, key) to compressed blob. The source's namespace string is
`"{name}.v{version}"`; it is modelled by the (name, version) pair itself. -/
abbrev CacheState := List ((String × Int) × List Nat × List Nat)

/-- `PreprocCache::get`: the most recently written blob under the key. -/
def cacheGet (c : CacheState) (db : String × Int) (key : List Nat) : Option (List Nat) :=
  match c.find? (fun e => decide (e.1 = db) && decide (e.2.1 = key)) with
  | some e => some e.2.2
  | none => none

/-- `PreprocCache::set`: last writer wins (new entry shadows older ones). -/
def cacheSet (c : CacheState) (db : String × Int) (key : List Nat) (blob : List Nat) :
    CacheState :=
  (db, key, blob) :: c

/-- Modelled from the spec: the zstd codec
(`async_compression::...::ZstdEncoder/ZstdDecoder`, an external library that
src/ only invokes). Spec §6 requires only that decoding losslessly reproduce
exactly the adapter's bytes, so the codec is modelled as a concrete lossless
framing (length header plus raw payload); the compression level does not
change the decoded meaning. -/
def zstdCompress (_level : Int) (data : List Nat) : List Nat :=
  encodeU64 data.length ++ data

/-- Modelled from the spec: zstd decoding, inverse of `zstdCompress`. -/
def zstdDecompress (blob : List Nat) : List Nat := blob.drop 8

/-- Modelled from the spec: the `CachingReader` decorator (spec §4.4; its
implementation is not under src/). It forwards the inner bytes unchanged and
on completion hands the callback the compressed bytes when their size stays
within `maxBlobLen`, `none` once the bound would be exceeded. Result:
(forwarded bytes, optional compressed blob passed to the callback). -/
def cachingReaderRun (maxBlobLen : Nat) (level : Int) (inner : List Nat) :
    List Nat × Option (List Nat) :=
  let compressed := zstdCompress level inner
  (inner, if compressed.length ≤ maxBlobLen then some compressed else none)

/-- Modelled from the spec: `concat_read_streams` (recurse.rs, not under
src/) concatenates an adapter's output streams in order (spec §4.2 step 4). -/
def concat_read_streams (streams : List (List Nat)) : List Nat := streams.flatten

/-- The ambient effects `preproc.rs` calls into: filesystem metadata
(`std::fs::metadata(..).modified()` as an mtime per path, `none` when the
metadata cannot be read), the adapter registry (`get_adapters_filtered`), the
matcher factory (`adapter_matcher`), the mimetype sniffer
(`tree_magic::from_u8`), and the cache opener (`LmdbCache::open`: an error,
or `none` when caching is disabled, or the cache contents). -/
structure Env where
  fs : RPath → Option Nat
  getAdapters : Except String (List FileAdapter)
  adapterMatcher : List FileAdapter → Bool →
    Except String (FileMeta → Option (FileAdapter × FileMatcher))
  sniff : List Nat → String
  cacheOpen : Except String (Option CacheState)

/-- Serialization of one (name, version) entry of the active-adapter roster
inside the recursive key shape. -/
def encodeAdapterId (p : String × Int) : List Nat := encodeStr p.1 ++ encodeI32 p.2

/-- bincode serialization of the recursive key shape
`(list of (active adapter name, version), cleaned path, mtime)`. -/
def encodeRecKey (ids : List (String × Int)) (cleanPath : RPath) (mtime : Nat) : List Nat :=
  encodeU64 ids.length ++ (ids.map encodeAdapterId).flatten
    ++ encodeStr cleanPath.render ++ encodeU64 mtime

/-- bincode serialization of the non-recursive key shape
`(adapter name, adapter version, cleaned path, mtime)`. -/
def encodeNonRecKey (name : String) (version : Int) (cleanPath : RPath) (mtime : Nat) :
    List Nat :=
  encodeStr name ++ encodeI32 version ++ encodeStr cleanPath.render ++ encodeU64 mtime

/-- `compute_cache_key` (preproc.rs:113): clean the path, read the mtime
(an error when the filesystem metadata cannot be read), then serialize one of
the two key shapes depending on the matched adapter's `recurses` flag. -/
def compute_cache_key (fs : RPath → Option Nat) (filepathHint : RPath)
    (adapter : FileAdapter) (activeAdapters : List FileAdapter) :
    Except String (List Nat) :=
  let cleanPath := filepathHint.clean
  match fs filepathHint with
  | none => .error ("reading metadata for " ++ filepathHint.render)
  | some modified =>
    if adapter.metadata.recurses then
      let activeAdaptersCacheKey :=
        activeAdapters.map (fun a => (a.metadata.name, a.metadata.version))
      .ok (encodeRecKey activeAdaptersCacheKey cleanPath modified)
    else
      .ok (encodeNonRecKey adapter.metadata.name adapter.metadata.version cleanPath modified)

/-- The observable result of one pipeline invocation. Each constructor's
`List Nat` is the byte sequence the consumer reads off the returned stream:
`stream` is the buffered raw input passed through unchanged; `cacheHit`
carries the stored compressed blob, which the consumer reads through a
`ZstdDecoder` (so it reads `zstdDecompress blob`); `cachedAdapt` is the
adapter output forwarded by the `CachingReader`, together with the cache
contents once the stream is fully consumed and the completion callback has
fired. -/
inductive PipeOut where
  | stream : List Nat → PipeOut
  | cacheHit : List Nat → PipeOut
  | cachedAdapt : List Nat → CacheState → PipeOut
deriving DecidableEq

/-- Result of a pipeline call, distinguishing a Rust panic from `Err`. -/
inductive POutcome (α : Type) where
  | ok : α → POutcome α
  | err : String → POutcome α
  | panic : String → POutcome α
deriving DecidableEq

/-- `run_adapter_recursively` (preproc.rs:142): open the cache for real files
(`None` for synthetic streams), turn the absence of a cache into the error
`"No cache?"` (`cache.context("No cache?")?`), compute the key and look it
up; on a hit return a decoder over the blob; on a miss run the adapter,
concatenate its output streams and wrap them in the caching reader, whose
completion callback stores the compressed blob when one is produced. -/
def run_adapter_recursively (env : Env) (ai : AdaptInfo) (adapter : FileAdapter)
    (detectionReason : FileMatcher) (activeAdapters : List FileAdapter) :
    Except String PipeOut :=
  let meta := adapter.metadata
  let dbName : String × Int := (meta.name, meta.version)
  let cacheCompressionLevel := ai.config.cache.compressionLevel
  let cacheMaxBlobLen := ai.config.cache.maxBlobLen
  match (if ai.isRealFile then env.cacheOpen else .ok none) with
  | .error e => .error e
  | .ok none => .error "No cache?"
  | .ok (some cache) =>
    match compute_cache_key env.fs ai.filepathHint adapter activeAdapters with
    | .error e => .error e
    | .ok cacheKey =>
      match cacheGet cache dbName cacheKey with
      | some cached => .ok (.cacheHit cached)
      | none =>
        -- cache miss: run the adapter (the source rebuilds an identical
        -- `AdaptInfo` from the destructured fields)
        match adapter.adapt ai detectionReason with
        | .error e =>
          .error ("adapting " ++ ai.filepathHint.render ++ " via " ++ meta.name
            ++ " failed: " ++ e)
        | .ok streams =>
          let inner := concat_read_streams streams
          let result := cachingReaderRun cacheMaxBlobLen cacheCompressionLevel inner
          let cacheAfter :=
            match result.2 with
            | some c => cacheSet cache dbName cacheKey c
            | none => cache
          .ok (.cachedAdapt result.1 cacheAfter)

/-- The `FileMeta` that `choose_adapter` hands to the matcher: the mimetype
sniffed from the buffered head of the stream when accurate matching is on
(`fill_buf` exposes at most the 64 KiB buffer capacity without consuming),
plus the lossy file name. -/
def sniffedMeta (env : Env) (config : RgaConfig) (inp : List Nat) (filename : String) :
    FileMeta :=
  { mimetype := if config.accurate then some (env.sniff (inp.take 65536)) else none
    lossyFilename := filename }

/-- `choose_adapter` (preproc.rs:23): build the filtered registry and the
matching function, fail with `"Empty filename"` when the path hint has no
final component, then apply the matcher to the file's `FileMeta`. The
recursion depth argument is only logged by the source; it is kept for
signature fidelity. -/
def choose_adapter (env : Env) (config : RgaConfig) (filepathHint : RPath)
    (_archiveRecursionDepth : Int) (inp : List Nat) :
    Except String (Option (FileAdapter × FileMatcher × List FileAdapter)) :=
  match env.getAdapters with
  | .error e => .error e
  | .ok activeAdapters =>
    match env.adapterMatcher activeAdapters config.accurate with
    | .error e => .error e
    | .ok adapters =>
      match filepathHint.fileName with
      | none => .error "Empty filename"
      | some filename =>
        let adapter := adapters (sniffedMeta env config inp filename)
        .ok (adapter.map (fun e => (e.1, e.2, activeAdapters)))

/-- The context `rga_preproc` wraps around `run_adapter_recursively` failures
(`with_context(|| format!(..))`, preproc.rs:110). -/
def runAdapterCtx (p : RPath) (e : String) : String :=
  "run_adapter(" ++ p.render ++ "): " ++ e

/-- The no-adapter error (preproc.rs:90), naming the offending file. -/
def noAdapterMsg (filename : String) : String :=
  "No adapter found for file \"" ++ filename ++ "\", passthrough disabled."

/-- `rga_preproc` (preproc.rs:56), the pipeline orchestrator. The input is
wrapped in a byte-transparent `BufReader` (capacity 1 << 16). The archive
recursion depth check at preproc.rs:58-61 sits inside a `todo` comment in the
source and is therefore absent from the compiled function; the embedding
mirrors the compiled code. On no match, passthrough is allowed iff the file
is not a real top-level file or accurate matching is on; the postprocess
branch of passthrough panics (`panic!("not implemented")`, preproc.rs:81). -/
def rga_preproc (env : Env) (ai : AdaptInfo) : POutcome PipeOut :=
  match choose_adapter env ai.config ai.filepathHint ai.archiveRecursionDepth ai.inp with
  | .error e => .err e
  | .ok none =>
    let allowCat := !ai.isRealFile || ai.config.accurate
    if allowCat then
      if ai.postprocess then
        .panic "not implemented"
      else
        .ok (.stream ai.inp)
    else
      match ai.filepathHint.fileName with
      | some filename => .err (noAdapterMsg filename)
      | none => .err "Empty filename"
  | .ok (some (adapter, detectionReason, activeAdapters)) =>
    match run_adapter_recursively env ai adapter detectionReason activeAdapters with
    | .ok out => .ok out
    | .error e => .err (runAdapterCtx ai.filepathHint e)

/-! Concrete fixtures used by evaluation theorems and witnesses. -/

/-- A concrete absolute path `/docs/f.zip`. -/
def pDoc : RPath := ⟨true, ["docs", "f.zip"]⟩

/-- A filesystem in which every path has mtime 100. -/
def fsSome : RPath → Option Nat := fun _ => some 100

/-- A recursive (archive) adapter producing the single stream `[7, 7]`. -/
def aZip : FileAdapter := ⟨⟨"zip", 1, true⟩, fun _ _ => .ok [[7, 7]]⟩

/-- A non-recursive adapter producing the single stream `[1]`. -/
def aTxt : FileAdapter := ⟨⟨"txt", 2, false⟩, fun _ _ => .ok [[1]]⟩

/-- A matcher that always selects `aZip` by extension. -/
def matchZip : FileMeta → Option (FileAdapter × FileMatcher) :=
  fun _ => some (aZip, .fast "zip")

/-- A matcher on which no adapter ever matches. -/
def matchNone : FileMeta → Option (FileAdapter × FileMatcher) := fun _ => none

/-- Build an environment with a fixed registry outcome and matcher. -/
def mkEnv (fs : RPath → Option Nat) (adapters : List FileAdapter)
    (m : FileMeta → Option (FileAdapter × FileMatcher))
    (cacheOpen : Except String (Option CacheState)) : Env :=
  { fs := fs
    getAdapters := .ok adapters
    adapterMatcher := fun _ _ => .ok m
    sniff := fun _ => "application/octet-stream"
    cacheOpen := cacheOpen }

/-- A configuration with fast matching and maximum recursion depth 2. -/
def cfgFast : RgaConfig := ⟨false, 2, ⟨3, 1000000⟩⟩

/-- Build an `AdaptInfo` over `cfgFast`. -/
def aiOf (p : RPath) (real : Bool) (inp : List Nat) (depth : Int) (pp : Bool) : AdaptInfo :=
  ⟨p, real, inp, "", cfgFast, depth, pp⟩

def envC1 : Env := mkEnv fsSome [aZip] matchZip (.ok (some []))

def aiC1 : AdaptInfo := aiOf pDoc true [9] 9 false

/-- C1: the claim requires `rga_preproc` to short-circuit with a placeholder
once `archive_recursion_depth` reaches the configured maximum, matching and
running no adapter. The compiled code carries that check only inside a
`todo` comment (preproc.rs:58-61): at recursion depth 9 with configured
maximum 2 the orchestrator still matches the archive adapter and runs it,
returning its output instead of a placeholder. -/
theorem rga_preproc_ignores_recursion_depth :
    aiC1.config.maxArchiveRecursion = 2 ∧ aiC1.archiveRecursionDepth = 9 ∧
    ∃ c, rga_preproc envC1 aiC1 = .ok (.cachedAdapt [7, 7] c) :=
  ⟨rfl, rfl, _, rfl⟩

def envC2 : Env := mkEnv fsSome [aZip] matchZip (.error "cache open failed")

def aiC2 : AdaptInfo := aiOf pDoc true [9] 0 false

/-- C2: the claim (and spec §7) requires a cache that cannot be opened to
degrade gracefully to running the matched adapter uncached. The compiled
code propagates the `LmdbCache::open` failure with `?` (preproc.rs:172), so
the whole invocation fails instead of running the adapter. -/
theorem cache_open_failure_is_fatal :
    rga_preproc envC2 aiC2 = .err (runAdapterCtx pDoc "cache open failed") := rfl

def envC3 : Env := mkEnv fsSome [aZip] matchZip (.ok (some []))

def aiC3 : AdaptInfo := aiOf pDoc false [9] 1 false

/-- C3: the claim requires a matched adapter on a synthetic sub-stream
(`is_real_file = false`) to run uncached and return its output. The compiled
code sets the cache to `None` for synthetic streams and then makes `None`
fatal (`cache.context("No cache?")?`, preproc.rs:171-177), so every matched
synthetic sub-stream fails instead of being adapted. -/
theorem synthetic_file_match_is_fatal :
    rga_preproc envC3 aiC3 = .err (runAdapterCtx pDoc "No cache?") := rfl

/-- Evaluation of `choose_adapter` when the registry and matcher factory
succeed and the path has a final component. -/
theorem choose_adapter_eval (env : Env) (cfg : RgaConfig) (p : RPath) (d : Int)
    (inp : List Nat) (l : List FileAdapter)
    (f : FileMeta → Option (FileAdapter × FileMatcher)) (fn : String)
    (hga : env.getAdapters = .ok l)
    (hm : env.adapterMatcher l cfg.accurate = .ok f)
    (hname : p.fileName = some fn) :
    choose_adapter env cfg p d inp =
      .ok ((f (sniffedMeta env cfg inp fn)).map (fun e => (e.1, e.2, l))) := by
  unfold choose_adapter
  rw [hga]; dsimp only
  rw [hm]; dsimp only
  rw [hname]

/-- Evaluation of `choose_adapter` when the path has no final component. -/
theorem choose_adapter_no_name (env : Env) (cfg : RgaConfig) (p : RPath) (d : Int)
    (inp : List Nat) (l : List FileAdapter)
    (f : FileMeta → Option (FileAdapter × FileMatcher))
    (hga : env.getAdapters = .ok l)
    (hm : env.adapterMatcher l cfg.accurate = .ok f)
    (hname : p.fileName = none) :
    choose_adapter env cfg p d inp = .error "Empty filename" := by
  unfold choose_adapter
  rw [hga]; dsimp only
  rw [hm]; dsimp only
  rw [hname]

/-- Evaluation of `rga_preproc` when no adapter matches: the passthrough /
panic / no-adapter-error decision tree of preproc.rs:73-97. -/
theorem rga_preproc_no_match (env : Env) (ai : AdaptInfo) (l : List FileAdapter)
    (f : FileMeta → Option (FileAdapter × FileMatcher)) (fn : String)
    (hga : env.getAdapters = .ok l)
    (hm : env.adapterMatcher l ai.config.accurate = .ok f)
    (hname : ai.filepathHint.fileName = some fn)
    (hnomatch : f (sniffedMeta env ai.config ai.inp fn) = none) :
    rga_preproc env ai =
      if !ai.isRealFile || ai.config.accurate then
        (if ai.postprocess then .panic "not implemented" else .ok (.stream ai.inp))
      else .err (noAdapterMsg fn) := by
  unfold rga_preproc
  rw [choose_adapter_eval env ai.config ai.filepathHint ai.archiveRecursionDepth ai.inp
    l f fn hga hm hname, hnomatch]
  simp only [Option.map_none', hname]

/-- C4: `compute_cache_key` fails when the filesystem metadata cannot be
read, and otherwise returns the serialization of exactly one of the two
shapes: for a recursive adapter the ordered (name, version) roster of all
active adapters with the cleaned path and the mtime, for a non-recursive
adapter its own name and version with the cleaned path and the mtime. -/
theorem compute_cache_key_two_shapes (fs : RPath → Option Nat) (p : RPath)
    (a : FileAdapter) (l : List FileAdapter) :
    (fs p = none → ∃ e, compute_cache_key fs p a l = .error e) ∧
    (∀ m, fs p = some m →
      compute_cache_key fs p a l = .ok (
        if a.metadata.recurses then
          encodeRecKey (l.map fun x => (x.metadata.name, x.metadata.version)) p.clean m
        else
          encodeNonRecKey a.metadata.name a.metadata.version p.clean m)) := by
  constructor
  · intro h
    exact ⟨_, by unfold compute_cache_key; rw [h]⟩
  · intro m h
    unfold compute_cache_key
    rw [h]
    by_cases hr : a.metadata.recurses <;> simp [hr]

/-- A filesystem on which no metadata can be read. -/
def fsNone : RPath → Option Nat := fun _ => none

/-- Witness for C4 at concrete inputs: the error case on an unreadable
filesystem and the non-recursive shape for `aTxt`. -/
theorem compute_cache_key_two_shapes_witness :
    (∃ e, compute_cache_key fsNone pDoc aTxt [aTxt] = .error e) ∧
    compute_cache_key fsSome pDoc aTxt [aTxt] =
      .ok (encodeNonRecKey "txt" 2 pDoc.clean 100) := by
  constructor
  · exact (compute_cache_key_two_shapes fsNone pDoc aTxt [aTxt]).1 rfl
  · have h := (compute_cache_key_two_shapes fsSome pDoc aTxt [aTxt]).2 100 rfl
    simpa [aTxt] using h

/-- C5: when no adapter matches (and the path has a file name), the pipeline
returns an `Err` exactly when the file is a real top-level file and accurate
matching is off, and that error names the offending file. -/
theorem no_match_fail_iff (env : Env) (ai : AdaptInfo) (l : List FileAdapter)
    (f : FileMeta → Option (FileAdapter × FileMatcher)) (fn : String)
    (hga : env.getAdapters = .ok l)
    (hm : env.adapterMatcher l ai.config.accurate = .ok f)
    (hname : ai.filepathHint.fileName = some fn)
    (hnomatch : f (sniffedMeta env ai.config ai.inp fn) = none) :
    ((∃ e, rga_preproc env ai = .err e) ↔
      (ai.isRealFile = true ∧ ai.config.accurate = false))
    ∧ (ai.isRealFile = true → ai.config.accurate = false →
        rga_preproc env ai = .err (noAdapterMsg fn)) := by
  have h := rga_preproc_no_match env ai l f fn hga hm hname hnomatch
  by_cases hr : ai.isRealFile <;> by_cases hacc : ai.config.accurate <;>
    by_cases hpp : ai.postprocess <;> simp [hr, hacc, hpp] at h <;> simp [h, hr, hacc]

def envC5 : Env := mkEnv fsSome [] matchNone (.ok (some []))

def aiC5 : AdaptInfo := aiOf pDoc true [3] 0 false

/-- Witness for C5: a real file under fast matching on which nothing matches
fails, naming `f.zip`. -/
theorem no_match_fail_iff_witness :
    rga_preproc envC5 aiC5 = .err (noAdapterMsg "f.zip") :=
  (no_match_fail_iff envC5 aiC5 [] matchNone "f.zip" rfl rfl rfl rfl).2 rfl rfl

def envC6 : Env := mkEnv fsSome [] matchNone (.ok (some []))

def aiC6 : AdaptInfo := aiOf pDoc false [3] 1 true

/-- C6 counterexample: a synthetic sub-stream (`is_real_file = false`) with
the postprocess flag set, on which no adapter matches, makes `rga_preproc`
panic (`panic!("not implemented")`, preproc.rs:81) instead of returning the
input bytes unchanged. -/
theorem passthrough_claim_cex :
    aiC6.isRealFile = false ∧
    rga_preproc envC6 aiC6 = .panic "not implemented" ∧
    rga_preproc envC6 aiC6 ≠ .ok (.stream aiC6.inp) :=
  ⟨rfl, rfl, by decide⟩

/-- C6 (amended): for every `AdaptInfo` with `is_real_file = false` and
`postprocess = false` on which no adapter matches, the pipeline returns the
raw input bytes unchanged and in order. -/
theorem no_match_synthetic_passthrough (env : Env) (ai : AdaptInfo)
    (l : List FileAdapter)
    (f : FileMeta → Option (FileAdapter × FileMatcher)) (fn : String)
    (hga : env.getAdapters = .ok l)
    (hm : env.adapterMatcher l ai.config.accurate = .ok f)
    (hname : ai.filepathHint.fileName = some fn)
    (hnomatch : f (sniffedMeta env ai.config ai.inp fn) = none)
    (hreal : ai.isRealFile = false) (hpp : ai.postprocess = false) :
    rga_preproc env ai = .ok (.stream ai.inp) := by
  rw [rga_preproc_no_match env ai l f fn hga hm hname hnomatch]
  simp [hreal, hpp]

def aiC6w : AdaptInfo := aiOf pDoc false [3, 1, 4] 1 false

/-- Witness for amended C6: a concrete synthetic stream passes through
byte-for-byte. -/
theorem no_match_synthetic_passthrough_witness :
    rga_preproc envC6 aiC6w = .ok (.stream [3, 1, 4]) :=
  no_match_synthetic_passthrough envC6 aiC6w [] matchNone "f.zip"
    rfl rfl rfl rfl rfl rfl

/-- C9: when no adapter matches, passthrough is allowed (synthetic stream or
accurate matching on) and the postprocess flag is set, `rga_preproc` panics
with "not implemented" rather than returning a stream or an error. -/
theorem no_match_postprocess_panics (env : Env) (ai : AdaptInfo)
    (l : List FileAdapter)
    (f : FileMeta → Option (FileAdapter × FileMatcher)) (fn : String)
    (hga : env.getAdapters = .ok l)
    (hm : env.adapterMatcher l ai.config.accurate = .ok f)
    (hname : ai.filepathHint.fileName = some fn)
    (hnomatch : f (sniffedMeta env ai.config ai.inp fn) = none)
    (hallow : ai.isRealFile = false ∨ ai.config.accurate = true)
    (hpp : ai.postprocess = true) :
    rga_preproc env ai = .panic "not implemented" := by
  rw [rga_preproc_no_match env ai l f fn hga hm hname hnomatch]
  rcases hallow with h1 | h1 <;> simp [h1, hpp]

/-- A configuration with accurate matching enabled. -/
def cfgAcc : RgaConfig := ⟨true, 2, ⟨3, 1000000⟩⟩

def envC9 : Env := mkEnv fsSome [] matchNone (.ok (some []))

def aiC9 : AdaptInfo := ⟨pDoc, true, [5], "", cfgAcc, 0, true⟩

/-- Witness for C9: a real file under accurate matching with postprocess set
panics. -/
theorem no_match_postprocess_panics_witness :
    rga_preproc envC9 aiC9 = .panic "not implemented" :=
  no_match_postprocess_panics envC9 aiC9 [] matchNone "f.zip"
    rfl rfl rfl rfl (Or.inr rfl) rfl

/-- C10: when the path hint has no final file-name component, `rga_preproc`
fails with "Empty filename". The statement quantifies over every matcher,
filesystem, cache state and adapter behavior (only the registry and matcher
construction are assumed to succeed, as they run first in the source), so
the error can depend on none of them: it precedes adapter matching, cache
access and adapter execution. -/
theorem empty_filename_early_error (env : Env) (ai : AdaptInfo)
    (l : List FileAdapter)
    (f : FileMeta → Option (FileAdapter × FileMatcher))
    (hga : env.getAdapters = .ok l)
    (hm : env.adapterMatcher l ai.config.accurate = .ok f)
    (hname : ai.filepathHint.fileName = none) :
    rga_preproc env ai = .err "Empty filename" := by
  unfold rga_preproc
  rw [choose_adapter_no_name env ai.config ai.filepathHint ai.archiveRecursionDepth
    ai.inp l f hga hm hname]

/-- The root path, whose `file_name` is `None`. -/
def pRoot : RPath := ⟨true, []⟩

/-- A relative path ending in "..", whose `file_name` is `None`. -/
def pUp : RPath := ⟨false, ["a", ".."]⟩

def aiRoot : AdaptInfo := aiOf pRoot true [1] 0 false

def aiUp : AdaptInfo := aiOf pUp false [1] 0 false

/-- Witness for C10 at both kinds of nameless paths, in an environment whose
matcher would match an adapter if it were ever consulted. -/
theorem empty_filename_early_error_witness :
    rga_preproc envC1 aiRoot = .err "Empty filename" ∧
    rga_preproc envC1 aiUp = .err "Empty filename" :=
  ⟨empty_filename_early_error envC1 aiRoot [aZip] matchZip rfl rfl rfl,
   empty_filename_early_error envC1 aiUp [aZip] matchZip rfl rfl rfl⟩

theorem encodeNatLE_length (k n : Nat) : (encodeNatLE k n).length = k := by
  induction k generalizing n with
  | zero => rfl
  | succ k ih => simp [encodeNatLE, ih]

/-- The modelled codec is lossless: decoding inverts encoding. -/
theorem zstd_roundtrip (lvl : Int) (d : List Nat) :
    zstdDecompress (zstdCompress lvl d) = d := by
  unfold zstdCompress zstdDecompress encodeU64
  rw [show (8 : Nat) = (encodeNatLE 8 d.length).length from (encodeNatLE_length 8 _).symm]
  exact List.drop_left _ _

/-- Reading back the entry just written returns exactly that blob. -/
theorem cacheGet_set_same (c : CacheState) (db : String × Int) (k b : List Nat) :
    cacheGet (cacheSet c db k b) db k = some b := by
  simp [cacheGet, cacheSet, List.find?]

/-- C8: on a cache miss the pipeline returns the adapter's concatenated
output `O` and, once the stream completes within the size bound, the
completion callback stores the compressed blob; a later invocation over the
updated cache hits, returning a stream of that blob, and decoding the blob
yields exactly `O`. -/
theorem adapter_output_cache_roundtrip (env : Env) (ai : AdaptInfo)
    (adapter : FileAdapter) (reason : FileMatcher) (active : List FileAdapter)
    (streams : List (List Nat)) (cache : CacheState) (key : List Nat)
    (o blob : List Nat) (cache2 : CacheState)
    (hreal : ai.isRealFile = true)
    (hopen : env.cacheOpen = .ok (some cache))
    (hkey : compute_cache_key env.fs ai.filepathHint adapter active = .ok key)
    (hmiss : cacheGet cache (adapter.metadata.name, adapter.metadata.version) key = none)
    (hadapt : adapter.adapt ai reason = .ok streams)
    (ho : o = concat_read_streams streams)
    (hblob : blob = zstdCompress ai.config.cache.compressionLevel o)
    (hc2 : cache2 = cacheSet cache (adapter.metadata.name, adapter.metadata.version) key blob)
    (hfits : blob.length ≤ ai.config.cache.maxBlobLen) :
    run_adapter_recursively env ai adapter reason active = .ok (.cachedAdapt o cache2) ∧
    run_adapter_recursively { env with cacheOpen := .ok (some cache2) }
      ai adapter reason active = .ok (.cacheHit blob) ∧
    zstdDecompress blob = o := by
  subst ho hblob hc2
  refine ⟨?_, ?_, zstd_roundtrip _ _⟩
  · simp [run_adapter_recursively, hreal, hopen, hkey, hmiss, hadapt,
      cachingReaderRun, hfits]
  · simp [run_adapter_recursively, hreal, hkey, cacheGet_set_same]

def aiC8 : AdaptInfo := aiOf pDoc true [9] 0 false

/-- The cache key `compute_cache_key` produces for `aZip` over `[aZip]`. -/
def keyC8 : List Nat := encodeRecKey [("zip", 1)] pDoc.clean 100

def blobC8 : List Nat := zstdCompress 3 [7, 7]

def cacheC8 : CacheState := cacheSet [] ("zip", 1) keyC8 blobC8

/-- Witness for C8: the archive adapter's output `[7, 7]` is cached on the
first run, hit on the second, and decodes back to `[7, 7]`. -/
theorem adapter_output_cache_roundtrip_witness :
    run_adapter_recursively envC1 aiC8 aZip (.fast "zip") [aZip]
      = .ok (.cachedAdapt [7, 7] cacheC8) ∧
    run_adapter_recursively { envC1 with cacheOpen := .ok (some cacheC8) }
      aiC8 aZip (.fast "zip") [aZip] = .ok (.cacheHit blobC8) ∧
    zstdDecompress blobC8 = [7, 7] :=
  adapter_output_cache_roundtrip envC1 aiC8 aZip (.fast "zip") [aZip]
    [[7, 7]] [] keyC8 [7, 7] blobC8 cacheC8
    rfl rfl rfl rfl rfl rfl rfl rfl (by decide)

theorem encodeNatLE_inj {k n m : Nat} (hn : n < 256 ^ k) (hm : m < 256 ^ k)
    (h : encodeNatLE k n = encodeNatLE k m) : n = m := by
  induction k generalizing n m with
  | zero =>
    simp at hn hm
    omega
  | succ k ih =>
    simp only [encodeNatLE, List.cons.injEq] at h
    obtain ⟨h1, h2⟩ := h
    rw [pow_succ] at hn hm
    have hn' : n / 256 < 256 ^ k := Nat.div_lt_of_lt_mul (by omega)
    have hm' : m / 256 < 256 ^ k := Nat.div_lt_of_lt_mul (by omega)
    have := ih hn' hm' h2
    omega

theorem encodeU64_inj {n m : Nat} (hn : n < 2 ^ 64) (hm : m < 2 ^ 64)
    (h : encodeU64 n = encodeU64 m) : n = m := by
  have e : (256 : Nat) ^ 8 = 2 ^ 64 := by norm_num
  exact encodeNatLE_inj (e ▸ hn) (e ▸ hm) h

theorem encodeI32_inj {v w : Int} (hv1 : -(2 ^ 31) ≤ v) (hv2 : v < 2 ^ 31)
    (hw1 : -(2 ^ 31) ≤ w) (hw2 : w < 2 ^ 31)
    (h : encodeI32 v = encodeI32 w) : v = w := by
  have e1 : ((2 : Int) ^ 31) = 2147483648 := by norm_num
  have e2 : ((2 : Int) ^ 32) = 4294967296 := by norm_num
  have e3 : (256 : Nat) ^ 4 = 4294967296 := by norm_num
  have hv0 : (0 : Int) ≤ v % 2 ^ 32 := Int.emod_nonneg v (by norm_num)
  have hvlt : v % 2 ^ 32 < 2 ^ 32 := Int.emod_lt_of_pos v (by norm_num)
  have hw0 : (0 : Int) ≤ w % 2 ^ 32 := Int.emod_nonneg w (by norm_num)
  have hwlt : w % 2 ^ 32 < 2 ^ 32 := Int.emod_lt_of_pos w (by norm_num)
  have htn := encodeNatLE_inj (k := 4)
    (by omega) (by omega) h
  have hmod : v % 2 ^ 32 = w % 2 ^ 32 := by omega
  have hd : ((2 : Int) ^ 32) ∣ w - v := Int.ModEq.dvd hmod
  have habs : |w - v| < (2 : Int) ^ 32 := by
    rw [abs_lt]
    constructor <;> omega
  have := Int.eq_zero_of_abs_lt_dvd hd habs
  omega

theorem char_toNat_inj : Function.Injective Char.toNat := by
  intro a b h
  apply Char.eq_of_val_eq
  apply UInt32.eq_of_toBitVec_eq
  exact BitVec.toNat_injective h

theorem strBytes_inj {s t : String} (h : strBytes s = strBytes t) : s = t := by
  unfold strBytes at h
  have hdata : s.data = t.data := List.map_injective_iff.mpr char_toNat_inj h
  cases s
  cases t
  exact congrArg String.mk hdata

/-- Machine-width well-formedness of one (name, version) roster entry: the
name's payload length fits the `u64` length field and the version lies in
`i32` range. Automatic for the source's Rust types (`usize`, `i32`); made
explicit here because the embedding's `Nat`/`Int` are unbounded. -/
def WFId (p : String × Int) : Prop :=
  (strBytes p.1).length < 2 ^ 64 ∧ -(2 ^ 31) ≤ p.2 ∧ p.2 < 2 ^ 31

/-- Machine-width well-formedness of a roster: its length fits a `u64` and
every entry is well-formed. -/
def WFIds (l : List (String × Int)) : Prop :=
  l.length < 2 ^ 64 ∧ ∀ p ∈ l, WFId p

instance : DecidablePred WFId := fun p => by
  unfold WFId
  infer_instance

instance : DecidablePred WFIds := fun l => by
  unfold WFIds
  infer_instance

theorem encodeAdapterId_cancel {p q : String × Int} {r1 r2 : List Nat}
    (hp : WFId p) (hq : WFId q)
    (h : encodeAdapterId p ++ r1 = encodeAdapterId q ++ r2) :
    p = q ∧ r1 = r2 := by
  obtain ⟨n1, v1⟩ := p
  obtain ⟨n2, v2⟩ := q
  unfold encodeAdapterId encodeStr at h
  simp only [List.append_assoc] at h
  obtain ⟨hA, hrest⟩ := List.append_inj h
    (by simp [encodeU64, encodeNatLE_length])
  have hlen := encodeU64_inj hp.1 hq.1 hA
  obtain ⟨hB, hrest2⟩ := List.append_inj hrest (by simpa using hlen)
  obtain ⟨hC, hr⟩ := List.append_inj hrest2
    (by simp [encodeI32, encodeNatLE_length])
  have hn := strBytes_inj hB
  have hv := encodeI32_inj hp.2.1 hp.2.2 hq.2.1 hq.2.2 hC
  exact ⟨Prod.ext hn hv, hr⟩

theorem encodeIds_flat_inj : ∀ {l1 l2 : List (String × Int)},
    (∀ p ∈ l1, WFId p) → (∀ p ∈ l2, WFId p) → l1.length = l2.length →
    (l1.map encodeAdapterId).flatten = (l2.map encodeAdapterId).flatten →
    l1 = l2 := by
  intro l1
  induction l1 with
  | nil =>
    intro l2 _ _ hlen _
    cases l2 with
    | nil => rfl
    | cons q t2 => simp at hlen
  | cons p t ih =>
    intro l2 h1 h2 hlen hf
    cases l2 with
    | nil => simp at hlen
    | cons q t2 =>
      simp only [List.map_cons, List.flatten_cons] at hf
      obtain ⟨hpq, hrest⟩ := encodeAdapterId_cancel
        (h1 p (by simp)) (h2 q (by simp)) hf
      have ht := ih (fun x hx => h1 x (by simp [hx]))
        (fun x hx => h2 x (by simp [hx])) (by simpa using hlen) hrest
      simp [hpq, ht]

theorem encodeRecKey_inj {l1 l2 : List (String × Int)} {p : RPath} {m : Nat}
    (h1 : WFIds l1) (h2 : WFIds l2)
    (h : encodeRecKey l1 p m = encodeRecKey l2 p m) : l1 = l2 := by
  unfold encodeRecKey at h
  simp only [List.append_assoc] at h
  obtain ⟨hA, hrest⟩ := List.append_inj h
    (by simp [encodeU64, encodeNatLE_length])
  have hlen := encodeU64_inj h1.1 h2.1 hA
  have hflat := List.append_cancel_right hrest
  exact encodeIds_flat_inj h1.2 h2.2 hlen hflat

/-- `aZip` with the `recurses` flag cleared: same name and version, a
different adapter value. -/
def aZipNoRec : FileAdapter := ⟨⟨"zip", 1, false⟩, fun _ _ => .ok [[7, 7]]⟩

/-- C7 counterexample: two active adapter lists that differ (their sole
members carry different `recurses` flags) but agree on every (name, version)
pair produce byte-identical cache keys for a recursive matched adapter,
because the key embeds only the (name, version) projection of the roster. -/
theorem rec_key_roster_cex :
    ([aZip] : List FileAdapter) ≠ [aZipNoRec] ∧
    compute_cache_key fsSome pDoc aZip [aZip] =
      compute_cache_key fsSome pDoc aZip [aZipNoRec] := by
  refine ⟨?_, rfl⟩
  intro h
  have := congrArg (fun l => l.map fun a => a.metadata.recurses) h
  simp [aZip, aZipNoRec] at this

/-- C7 (amended): for a fixed path and mtime, the key of a non-recursive
matched adapter is the same for any two active adapter lists; for a
recursive matched adapter, any two rosters whose (name, version) sequences
differ yield different keys (under machine-width well-formedness, automatic
in Rust). Lists that differ only in other adapter state while agreeing on
every (name, version) pair can still collide. -/
theorem cache_key_roster_dependence (fs : RPath → Option Nat) (p : RPath)
    (m : Nat) (a : FileAdapter) (hm : fs p = some m) :
    (a.metadata.recurses = false →
      ∀ l1 l2 : List FileAdapter,
        compute_cache_key fs p a l1 = compute_cache_key fs p a l2)
    ∧ (a.metadata.recurses = true →
      ∀ l1 l2 : List FileAdapter,
        WFIds (l1.map fun x => (x.metadata.name, x.metadata.version)) →
        WFIds (l2.map fun x => (x.metadata.name, x.metadata.version)) →
        (l1.map fun x => (x.metadata.name, x.metadata.version)) ≠
          (l2.map fun x => (x.metadata.name, x.metadata.version)) →
        compute_cache_key fs p a l1 ≠ compute_cache_key fs p a l2) := by
  constructor
  · intro hrec l1 l2
    unfold compute_cache_key
    rw [hm]
    simp [hrec]
  · intro hrec l1 l2 w1 w2 hne hkeys
    apply hne
    unfold compute_cache_key at hkeys
    rw [hm] at hkeys
    simp only [hrec, if_true] at hkeys
    exact encodeRecKey_inj w1 w2 (by simpa using hkeys)

/-- Witness for amended C7: the non-recursive adapter `aTxt` keys the same
over rosters `[aZip]` and `[]`; the recursive adapter `aZip` keys
differently over them. -/
theorem cache_key_roster_dependence_witness :
    compute_cache_key fsSome pDoc aTxt [aZip] = compute_cache_key fsSome pDoc aTxt [] ∧
    compute_cache_key fsSome pDoc aZip [aZip] ≠ compute_cache_key fsSome pDoc aZip [] := by
  have h1 := cache_key_roster_dependence fsSome pDoc 100 aTxt rfl
  have h2 := cache_key_roster_dependence fsSome pDoc 100 aZip rfl
  exact ⟨h1.1 rfl [aZip] [], h2.2 rfl [aZip] [] (by decide) (by decide) (by decide)⟩

end Rga
